import Mathlib

/-!
# foodallergens: `runModel` of `app/src/main/cpp/native-lib.cpp`

A shallow embedding of the JNI bridge's `runModel` (generation driver, metrics and allergen
extractor) and proofs about the string it returns.

Modelling conventions.

* A `std::string` is a `List Char` (`Str`); a byte of the C++ string is a `Char`, and `::tolower`
  is the C-locale mapping, which only moves `A`..`Z`.
* A `std::set<std::string>` is the strictly increasing list of its elements (the order in which
  a range-for visits them), built by `setInsert` with the lexicographic order of the characters.
* C++ `int` and `long` values are `Int`s. `long` is the 64-bit type of the LP64 Android ABIs; the
  two `long` products are reduced with `wrapLong`. The `int` sums of the loop condition are
  taken without wrap-around (a prompt of more than `2^31 - 65` tokens is outside the model).
* The wrapped llama.cpp calls and the clock are an explicit `World`: what each call returns.
* The `while` loop is `genLoop`, recursive on a fuel counter; `none` means out of fuel.
-/

namespace FoodAllergens

set_option maxRecDepth 100000

/-! ## Strings -/

/-- A `std::string`, as the list of its characters. -/
abbrev Str := List Char

/-- The C-locale `::tolower` on one character: `A`..`Z` move to `a`..`z`, the rest stay. -/
def tolower (c : Char) : Char :=
  if 65 ≤ c.toNat ∧ c.toNat ≤ 90 then Char.ofNat (c.toNat + 32) else c

/-- The call `std::transform(s.begin(), s.end(), s.begin(), ::tolower)`. -/
def transform_tolower (s : Str) : Str := s.map tolower

/-- The search of `std::string::find`: position of the first occurrence of `needle` in `hay` at
or after the current position `i` (`hay` is the text from position `i` on), `none` for `npos`. -/
def findFrom (needle : Str) : Str → Nat → Option Nat
  | [], i => if needle.isPrefixOf [] then some i else none
  | c :: cs, i => if needle.isPrefixOf (c :: cs) then some i else findFrom needle cs (i + 1)

/-- The call `hay.find(needle)`. -/
def find (hay needle : Str) : Option Nat := findFrom needle hay 0

/-- The test `hay.find(needle) != std::string::npos`. -/
def found (hay needle : Str) : Bool := (find hay needle).isSome

/-! ## `std::set<std::string>` -/

/-- The order `std::less<std::string>`: lexicographic on the character codes. -/
def strLess : Str → Str → Bool
  | [], [] => false
  | [], _ :: _ => true
  | _ :: _, [] => false
  | a :: as, b :: bs =>
    if a.toNat < b.toNat then true
    else if b.toNat < a.toNat then false
    else strLess as bs

/-- The call `set.insert(x)` on the increasing list of the set's elements. -/
def setInsert (x : Str) : List Str → List Str
  | [] => [x]
  | y :: ys =>
    if strLess x y then x :: y :: ys
    else if strLess y x then y :: setInsert x ys
    else y :: ys

/-- The test `set.find(x) != set.end()`. -/
def setContains (s : List Str) (x : Str) : Bool := s.contains x

/-- The braces of the initializer of `ALLOWED_ALLERGENS`, in the order they are written. -/
def ALLOWED_ALLERGENS_init : List Str :=
  ["milk".toList, "egg".toList, "peanut".toList, "tree nut".toList,
   "wheat".toList, "soy".toList, "fish".toList, "shellfish".toList, "sesame".toList]

/-- The set `ALLOWED_ALLERGENS`: the initializer's strings inserted one by one; the list is the
order in which `for (const auto& allergen : ALLOWED_ALLERGENS)` visits them. -/
def ALLOWED_ALLERGENS : List Str :=
  ALLOWED_ALLERGENS_init.foldl (fun s x => setInsert x s) []

/-! ## Allergen extractor (lines 214-255 of `runModel`) -/

/-- The state of the scan: the vector `detected` and the set `detected_set`. -/
structure Scan where
  detected : List Str
  detected_set : List Str

/-- The body of `for (const auto& allergen : ALLOWED_ALLERGENS)`. -/
def scanStep (output_lower : Str) (st : Scan) (allergen : Str) : Scan :=
  if found output_lower allergen then
    if !setContains st.detected_set allergen then
      { detected := st.detected ++ [allergen],
        detected_set := setInsert allergen st.detected_set }
    else st
  else st

/-- The vector `detected` after the scan of the whole vocabulary. -/
def detect (output_lower : Str) : List Str :=
  (ALLOWED_ALLERGENS.foldl (scanStep output_lower) ⟨[], []⟩).detected

/-- The rebuild loop `for (i = 0; i < detected.size(); i++)`: `rest` is what is left of
`detected` from index `i` on, `first` says that `i = 0`, `output` is the string so far. -/
def rebuild : List Str → Bool → Str → Str
  | [], _, output => output
  | d :: rest, first, output =>
    rebuild rest false ((if first then output else output ++ ",".toList) ++ d)

/-- The post-processing of the raw generated text `output`: the value of `output` at line 257. -/
def extractAllergens (output : Str) : Str :=
  let output_lower := transform_tolower output
  if found output_lower "empty".toList && !found output_lower "not empty".toList then
    "EMPTY".toList
  else
    let detected := detect output_lower
    if detected.isEmpty then "EMPTY".toList
    else rebuild detected true []

/-! ## Integers and their decimal form -/

/-- A value reduced to the range of the 64-bit `long`, `-2^63 ≤ x < 2^63`. -/
def wrapLong (x : Int) : Int := (x + 2 ^ 63) % 2 ^ 64 - 2 ^ 63

/-- What can go wrong in a run of the model: the fuel of the loop runs out, or a division has
a zero divisor. -/
inductive Fault where
  | out_of_fuel : Fault
  | division_by_zero : Fault

/-- The `long` product `a * b`. -/
def long_mul (a b : Int) : Int := wrapLong (a * b)

/-- The `long` quotient `a / b`, which truncates towards zero; a zero divisor is a fault. -/
def long_div (a b : Int) : Except Fault Int :=
  if b = 0 then .error .division_by_zero else .ok (wrapLong (a.tdiv b))

/-- The call `std::to_string(x)` on a `long`: the decimal digits, after a `-` when negative. -/
def to_string (x : Int) : Str :=
  if x < 0 then '-' :: Nat.toDigits 10 x.natAbs else Nat.toDigits 10 x.natAbs

/-! ## The wrapped library and the clock -/

/-- What the library returns during one pass of the body of the generation loop. -/
structure Step where
  /-- The value of `llama_vocab_is_eog(vocab, token)` on the token just sampled. -/
  is_eog : Bool
  /-- The return value `n` of `llama_token_to_piece`. -/
  n : Int
  /-- The characters of `buf` after `llama_token_to_piece`. -/
  buf : Str
  /-- The return value of `llama_decode` on the one-token batch. -/
  decode : Int

/-- The outcomes of the calls `runModel` makes: the llama.cpp library and the clock. -/
structure World where
  /-- Whether `llama_model_load_from_file(model_path)` returns a model (not null). -/
  llama_model_load_from_file : Str → Bool
  /-- Whether `llama_init_from_model` returns a context (not null). -/
  llama_init_from_model : Bool
  /-- The return value of `llama_tokenize` on the prompt and the size of the token buffer. -/
  llama_tokenize : Str → Nat → Int
  /-- The return value of `llama_decode` on the prompt batch (the prefill). -/
  llama_decode_prompt : Int
  /-- The library's answers in the `i`-th pass of the loop body, `i = 0, 1, ...`. -/
  step : Nat → Step
  /-- The count of milliseconds of `t_prefill_end - t_prefill_start`. -/
  prefill_ms : Int
  /-- The count of milliseconds of `t_first - t_start`. -/
  first_ms : Int
  /-- The count of milliseconds of `t_gen_end - t_gen_start`. -/
  gen_ms : Int

/-! ## Generation loop (lines 149-196) -/

/-- The constant `max_tokens`, which is also `n_predict`. -/
def max_tokens : Int := 64

/-- The variables the `while` loop reads and writes. -/
structure Loop where
  n_pos : Int
  /-- The field `batch.n_tokens`. -/
  batch_n_tokens : Int
  output : Str
  generated_tokens : Int
  first_token_seen : Bool
  ttft_ms : Int
  /-- The number of tokens sampled so far: the index of the next `World.step`. -/
  sampled : Nat

/-- The text `output.append(buf, n)` adds when `n > 0`, nothing otherwise. -/
def piece (t : Step) : Str := if t.n > 0 then t.buf.take t.n.toNat else []

/-- The loop `while (n_pos + batch.n_tokens < n_prompt + n_predict)`, at most `fuel` tests of
its condition; the result is the state in which the loop is left. -/
def genLoop (w : World) (n_prompt : Int) : Nat → Loop → Option Loop
  | 0, _ => none
  | fuel + 1, s =>
    if s.n_pos + s.batch_n_tokens < n_prompt + max_tokens then
      let t := w.step s.sampled
      let s := { s with sampled := s.sampled + 1 }
      if t.is_eog then some s
      else
        let s := if !s.first_token_seen then
            { s with ttft_ms := w.first_ms, first_token_seen := true }
          else s
        let s := { s with output := s.output ++ piece t }
        let s := { s with generated_tokens := s.generated_tokens + 1 }
        let s := { s with batch_n_tokens := 1 }
        if t.decode ≠ 0 then some s
        else genLoop w n_prompt fuel { s with n_pos := s.n_pos + s.batch_n_tokens }
    else some s

/-- The loop variables when the loop is entered. -/
def Loop.init (n_prompt : Int) : Loop :=
  { n_pos := 0, batch_n_tokens := n_prompt, output := [], generated_tokens := 0,
    first_token_seen := false, ttft_ms := -1, sampled := 0 }

/-! ## `runModel` -/

/-- The final `std::string result`. -/
def formatResult (ttft_ms itps otps oet_ms : Int) (output : Str) : Str :=
  "TTFT_MS=".toList ++ to_string ttft_ms ++
  ";ITPS=".toList ++ to_string itps ++
  ";OTPS=".toList ++ to_string otps ++
  ";OET_MS=".toList ++ to_string oet_ms ++
  "|".toList ++ output

/-- The function `runModel(prompt, model_path)` in the world `w`, the loop run with `fuel`. -/
def runModel (w : World) (fuel : Nat) (prompt model_path : Str) : Except Fault Str :=
  if !w.llama_model_load_from_file model_path then
    .ok "TTFT_MS=0;ITPS=0;OTPS=0;OET_MS=0|ERROR_MODEL_LOAD_FAILED".toList
  else if !w.llama_init_from_model then
    .ok "TTFT_MS=0;ITPS=0;OTPS=0;OET_MS=0|ERROR_CONTEXT_INIT_FAILED".toList
  else
    let n_prompt := w.llama_tokenize prompt (prompt.length + 8)
    if n_prompt ≤ 0 then
      .ok "TTFT_MS=0;ITPS=0;OTPS=0;OET_MS=0|ERROR_TOKENIZATION_FAILED".toList
    else if w.llama_decode_prompt ≠ 0 then
      .ok "TTFT_MS=0;ITPS=0;OTPS=0;OET_MS=0|ERROR_DECODE_FAILED".toList
    else do
      let itps ← (if w.prefill_ms > 0 then long_div (long_mul n_prompt 1000) w.prefill_ms
        else pure (-1))
      let s ← (match genLoop w n_prompt fuel (Loop.init n_prompt) with
        | some s => pure s
        | none => throw Fault.out_of_fuel)
      let otps ← (if w.gen_ms > 0 then long_div (long_mul s.generated_tokens 1000) w.gen_ms
        else pure (-1))
      let oet_ms := w.gen_ms
      pure (formatResult s.ttft_ms itps otps oet_ms (extractAllergens s.output))

/-! ## The result grammar of the specification -/

/-- The `int` of the result grammar: decimal digits, at least one, after an optional `-`. -/
def IsInt (s : Str) : Prop :=
  ∃ ds : Str, ds ≠ [] ∧ (∀ c ∈ ds, c.isDigit = true) ∧ (s = ds ∨ s = '-' :: ds)

/-- The `error_token` of the result grammar: `ERROR_` and a name of capitals and `_`. -/
def IsErrorToken (p : Str) : Prop :=
  ∃ name : Str, name ≠ [] ∧ (∀ c ∈ name, c.isUpper = true ∨ c = '_') ∧
    p = "ERROR_".toList ++ name

/-- The `label_list` of the result grammar: vocabulary labels, at least one, joined by `,`. -/
def IsLabelList (p : Str) : Prop :=
  ∃ labels : List Str, labels ≠ [] ∧ (∀ l ∈ labels, l ∈ ALLOWED_ALLERGENS) ∧
    p = ",".toList.intercalate labels

/-- The `payload` of the result grammar. -/
def IsPayload (p : Str) : Prop :=
  p = "EMPTY".toList ∨ IsErrorToken p ∨ IsLabelList p

/-- The `result` of the result grammar: the four metrics, a bar and the payload. -/
def IsResult (s : Str) : Prop :=
  ∃ ttft itps otps oet payload : Str,
    IsInt ttft ∧ IsInt itps ∧ IsInt otps ∧ IsInt oet ∧ IsPayload payload ∧
    s = "TTFT_MS=".toList ++ ttft ++ ";ITPS=".toList ++ itps ++ ";OTPS=".toList ++ otps ++
      ";OET_MS=".toList ++ oet ++ "|".toList ++ payload

/-- The payload of a result string: what follows its first bar. -/
def payloadOf (s : Str) : Str := (s.dropWhile (fun c => c != '|')).drop 1

/-- Whether a payload is an error token: it starts with `ERROR_`. -/
def isErrorPayload (p : Str) : Bool := "ERROR_".toList.isPrefixOf p

/-! ## Closed forms of the loop variables -/

/-- The text appended by the first `k` passes of the loop body. -/
def pieces (w : World) (k : Nat) : Str :=
  ((List.range k).map (fun i => piece (w.step i))).flatten

/-- The loop variables after `j` complete passes of the loop body. -/
def stateAfter (w : World) (n_prompt : Int) : Nat → Loop
  | 0 => Loop.init n_prompt
  | j + 1 =>
    { n_pos := (j : Int) + 1, batch_n_tokens := 1, output := pieces w (j + 1),
      generated_tokens := (j : Int) + 1, first_token_seen := true, ttft_ms := w.first_ms,
      sampled := j + 1 }

/-- The state in which the loop is left when the decode of the token of pass `j` fails. -/
def stateDecodeFailed (w : World) (n_prompt : Int) (j : Nat) : Loop :=
  { stateAfter w n_prompt (j + 1) with n_pos := (j : Int) }

/-- The guarded quotient of the two throughput metrics: `count * 1000 / ms` when `ms > 0`, and
the sentinel `-1` otherwise. -/
def throughput (count ms : Int) : Int := if ms > 0 then (count * 1000).tdiv ms else -1

/-- Lines 198-281 of `runModel`: the metrics of the generation phase, the extractor and the
result string, from the token count `n_prompt` and the state `s` in which the loop is left. -/
def finish (w : World) (n_prompt : Int) (s : Loop) : Except Fault Str := do
  let itps ← (if w.prefill_ms > 0 then long_div (long_mul n_prompt 1000) w.prefill_ms
    else pure (-1))
  let otps ← (if w.gen_ms > 0 then long_div (long_mul s.generated_tokens 1000) w.gen_ms
    else pure (-1))
  pure (formatResult s.ttft_ms itps otps w.gen_ms (extractAllergens s.output))

/-- Whether one of the four fatal failures occurs: the model does not load, the context is
not created, the tokenizer returns no token, or the decode of the prompt fails. -/
def fatalFailure (w : World) (prompt model_path : Str) : Prop :=
  w.llama_model_load_from_file model_path = false ∨ w.llama_init_from_model = false ∨
  w.llama_tokenize prompt (prompt.length + 8) ≤ 0 ∨ w.llama_decode_prompt ≠ 0

/-- The run without failure next to a run whose `k`-th incremental decode fails: the same
tokens and pieces in the first `k` passes, every decode successful, then an end-of-generation
token; the other calls and the clock readings are the same. -/
def noFailureTwin (w : World) (k : Nat) : World :=
  { w with step := fun i =>
      if i < k then { w.step i with decode := 0 }
      else { is_eog := true, n := 0, buf := [], decode := 0 } }

/-! ## Example worlds -/

/-- A prompt of the application. -/
def examplePrompt : Str := "Ingredients: bread, peanut butter".toList

/-- A path of a model file. -/
def exampleModelPath : Str := "/data/local/tmp/model.gguf".toList

/-- A world in which the model loads, the context is created, the prompt has `n_prompt`
tokens and its decode succeeds; the prefill takes 4 ms, the first token comes after 9 ms and
the loop takes 1000 ms. -/
def exampleWorld (n_prompt : Int) (step : Nat → Step) : World :=
  { llama_model_load_from_file := fun _ => true, llama_init_from_model := true,
    llama_tokenize := fun _ _ => n_prompt, llama_decode_prompt := 0, step := step,
    prefill_ms := 4, first_ms := 9, gen_ms := 1000 }

/-- A two-token prompt; the sampler never returns an end-of-generation token, every token is
the piece "a" and every decode succeeds. -/
def worldNeverEog : World :=
  exampleWorld 2 (fun _ => { is_eog := false, n := 1, buf := "a".toList, decode := 0 })

/-- A two-token prompt; the first token is the piece "milk" and its decode fails. -/
def worldDecodeFails : World :=
  exampleWorld 2 (fun _ => { is_eog := false, n := 4, buf := "milk".toList, decode := 1 })

/-- The model file does not load. -/
def worldNoModel : World := { worldNeverEog with llama_model_load_from_file := fun _ => false }

/-- The model loads and the context is not created. -/
def worldNoContext : World := { worldNeverEog with llama_init_from_model := false }

/-- The tokenizer returns zero tokens. -/
def worldNoTokens : World := { worldNeverEog with llama_tokenize := fun _ _ => 0 }

/-- The decode of the prompt returns 1. -/
def worldPrefillFails : World := { worldNeverEog with llama_decode_prompt := 1 }

/-! ## Lemmas: substring search -/

theorem findFrom_isSome (needle : Str) (hay : Str) (i : Nat) :
    (findFrom needle hay i).isSome = true ↔ needle <:+: hay := by
  induction hay generalizing i with
  | nil =>
    cases needle <;> simp [findFrom, List.isPrefixOf]
  | cons c cs ih =>
    unfold findFrom
    by_cases h : needle.isPrefixOf (c :: cs) = true
    · rw [if_pos h]
      simp only [Option.isSome_some, true_iff]
      exact (List.isPrefixOf_iff_prefix.mp h).isInfix
    · rw [if_neg h, ih, List.infix_cons_iff]
      constructor
      · exact fun hh => Or.inr hh
      · rintro (hp | hh)
        · exact absurd (List.isPrefixOf_iff_prefix.mpr hp) h
        · exact hh

/-- The test `hay.find(needle) != npos` holds exactly when `needle` is a substring of `hay`. -/
theorem found_iff (hay needle : Str) : found hay needle = true ↔ needle <:+: hay := by
  unfold found find
  exact findFrom_isSome needle hay 0

/-! ## Lemmas: the vocabulary and the scan -/

theorem ALLOWED_ALLERGENS_eq : ALLOWED_ALLERGENS =
    ["egg".toList, "fish".toList, "milk".toList, "peanut".toList, "sesame".toList,
     "shellfish".toList, "soy".toList, "tree nut".toList, "wheat".toList] := by
  decide

theorem ALLOWED_ALLERGENS_nodup : ALLOWED_ALLERGENS.Nodup := by
  rw [ALLOWED_ALLERGENS_eq]; decide

theorem strLess_antisymm : ∀ a b : Str, strLess a b = false → strLess b a = false → a = b
  | [], [], _, _ => rfl
  | [], _ :: _, h, _ => by simp [strLess] at h
  | _ :: _, [], _, h => by simp [strLess] at h
  | a :: as, b :: bs, h1, h2 => by
    unfold strLess at h1 h2
    by_cases hab : a.toNat < b.toNat
    · simp [hab] at h1
    · by_cases hba : b.toNat < a.toNat
      · simp [hba] at h2
      · simp only [hab, hba, if_false] at h1 h2
        have hn : a.toNat = b.toNat :=
          Nat.le_antisymm (Nat.le_of_not_lt hba) (Nat.le_of_not_lt hab)
        have hc : a = b := by
          have := congrArg Char.ofNat hn
          simpa [Char.ofNat_toNat] using this
        rw [hc, strLess_antisymm as bs h1 h2]

theorem mem_setInsert (x y : Str) (s : List Str) : y ∈ setInsert x s ↔ y = x ∨ y ∈ s := by
  induction s with
  | nil => simp [setInsert]
  | cons z zs ih =>
    unfold setInsert
    cases h1 : strLess x z
    · cases h2 : strLess z x
      · have hxz : x = z := strLess_antisymm x z h1 h2
        subst hxz
        simp
      · simp only [if_true, Bool.false_eq_true, if_false, List.mem_cons, ih]
        tauto
    · simp

theorem foldl_scanStep (low : Str) (l : List Str) (st : Scan)
    (hset : ∀ y, y ∈ st.detected_set ↔ y ∈ st.detected)
    (hnd : l.Nodup) (hdis : ∀ a ∈ l, a ∉ st.detected) :
    (l.foldl (scanStep low) st).detected = st.detected ++ l.filter (found low) := by
  induction l generalizing st with
  | nil => simp
  | cons a l ih =>
    rw [List.nodup_cons] at hnd
    rw [List.foldl_cons]
    by_cases hf : found low a = true
    · have hna : setContains st.detected_set a = false := by
        unfold setContains
        have : a ∉ st.detected_set := fun h => hdis a (List.mem_cons_self _ _) ((hset a).mp h)
        simpa using this
      have hstep : scanStep low st a =
          { detected := st.detected ++ [a], detected_set := setInsert a st.detected_set } := by
        simp [scanStep, hf, hna]
      rw [hstep, ih _ _ hnd.2 _, List.filter_cons_of_pos hf]
      · simp
      · intro y
        simp only [mem_setInsert, List.mem_append, List.mem_singleton, hset]
        tauto
      · intro b hb
        simp only [List.mem_append, List.mem_singleton, not_or]
        refine ⟨hdis b (List.mem_cons_of_mem _ hb), ?_⟩
        rintro rfl
        exact hnd.1 hb
    · have hstep : scanStep low st a = st := by simp [scanStep, hf]
      rw [hstep, ih st hset hnd.2 (fun b hb => hdis b (List.mem_cons_of_mem _ hb)),
        List.filter_cons_of_neg hf]

/-- The scan collects the vocabulary entries found in the text, in the vocabulary's order. -/
theorem detect_eq_filter (low : Str) : detect low = ALLOWED_ALLERGENS.filter (found low) := by
  unfold detect
  rw [foldl_scanStep low ALLOWED_ALLERGENS ⟨[], []⟩ (by simp) ALLOWED_ALLERGENS_nodup (by simp)]
  simp

/-! ## Lemmas: the rebuild loop -/

theorem rebuild_false (ds : List Str) (out : Str) :
    rebuild ds false out = out ++ (ds.map (fun d => ",".toList ++ d)).flatten := by
  induction ds generalizing out with
  | nil => simp [rebuild]
  | cons d ds ih => simp [rebuild, ih]

theorem intercalate_cons_cons (sep d : Str) (ds : List Str) :
    sep.intercalate (d :: ds) = d ++ (ds.map (fun e => sep ++ e)).flatten := by
  induction ds generalizing d with
  | nil => simp [List.intercalate]
  | cons e es ih =>
    have := ih e
    simp only [List.intercalate] at this ⊢
    simp [List.intersperse, this]

/-- The rebuild loop joins the detected labels with commas. -/
theorem rebuild_eq_intercalate (ds : List Str) :
    rebuild ds true [] = ",".toList.intercalate ds := by
  cases ds with
  | nil => simp [rebuild, List.intercalate]
  | cons d ds => rw [intercalate_cons_cons]; simp [rebuild, rebuild_false]

/-! ## Lemmas: the extractor -/

theorem extractAllergens_short (raw : Str)
    (h : (found (transform_tolower raw) "empty".toList
      && !found (transform_tolower raw) "not empty".toList) = true) :
    extractAllergens raw = "EMPTY".toList := by
  unfold extractAllergens
  simp only [h, if_true]

theorem extractAllergens_scan (raw : Str)
    (h : (found (transform_tolower raw) "empty".toList
      && !found (transform_tolower raw) "not empty".toList) = false) :
    extractAllergens raw =
      if (detect (transform_tolower raw)).isEmpty then "EMPTY".toList
      else ",".toList.intercalate (detect (transform_tolower raw)) := by
  unfold extractAllergens
  simp only [h, Bool.false_eq_true, if_false, rebuild_eq_intercalate]

theorem comma_not_mem_of_mem_vocabulary {a : Str} (ha : a ∈ ALLOWED_ALLERGENS) : ',' ∉ a := by
  rw [ALLOWED_ALLERGENS_eq] at ha
  simp only [List.mem_cons, List.mem_singleton, List.not_mem_nil, or_false] at ha
  rcases ha with h | h | h | h | h | h | h | h | h <;> subst h <;> decide

theorem head_ne_E_of_mem_vocabulary {a : Str} (ha : a ∈ ALLOWED_ALLERGENS) :
    ∃ c cs, a = c :: cs ∧ c ≠ 'E' := by
  rw [ALLOWED_ALLERGENS_eq] at ha
  simp only [List.mem_cons, List.mem_singleton, List.not_mem_nil, or_false] at ha
  rcases ha with h | h | h | h | h | h | h | h | h <;> subst h <;>
    exact ⟨_, _, rfl, by decide⟩

theorem mem_detect {low a : Str} :
    a ∈ detect low ↔ a ∈ ALLOWED_ALLERGENS ∧ a <:+: low := by
  rw [detect_eq_filter, List.mem_filter, found_iff]

theorem intercalate_ne_EMPTY {ds : List Str} (hne : ds ≠ [])
    (hd : ∀ d ∈ ds, d ∈ ALLOWED_ALLERGENS) : ",".toList.intercalate ds ≠ "EMPTY".toList := by
  cases ds with
  | nil => exact absurd rfl hne
  | cons d ds =>
    obtain ⟨c, cs, hc, hE⟩ := head_ne_E_of_mem_vocabulary (hd d (List.mem_cons_self _ _))
    rw [intercalate_cons_cons, hc]
    intro h
    have : c = 'E' := by
      have h2 := congrArg List.head? h
      simpa using h2
    exact hE this

/-- The payload is `EMPTY` or the comma-joined, non-empty list of the detected labels. -/
theorem extractAllergens_cases (raw : Str) :
    extractAllergens raw = "EMPTY".toList ∨
    (detect (transform_tolower raw) ≠ [] ∧
      extractAllergens raw = ",".toList.intercalate (detect (transform_tolower raw))) := by
  cases h : (found (transform_tolower raw) "empty".toList
      && !found (transform_tolower raw) "not empty".toList)
  · rw [extractAllergens_scan raw h]
    cases hd : detect (transform_tolower raw) with
    | nil => left; simp
    | cons d ds => right; simp
  · left; exact extractAllergens_short raw h

/-! ## Lemmas: integers and the result grammar -/

theorem wrapLong_eq_self {x : Int} (h1 : -2 ^ 63 ≤ x) (h2 : x < 2 ^ 63) : wrapLong x = x := by
  unfold wrapLong
  rw [Int.emod_eq_of_lt (by omega) (by omega)]
  omega

theorem long_div_pos {a b : Int} (ha : 0 ≤ a) (ha2 : a < 2 ^ 63) (hb : 0 < b) :
    long_div a b = .ok (a.tdiv b) := by
  unfold long_div
  rw [if_neg (by omega)]
  have h0 : 0 ≤ a.tdiv b := Int.tdiv_nonneg ha (by omega)
  have h1 : a.tdiv b ≤ a := by
    rw [Int.tdiv_eq_ediv ha (by omega)]
    exact Int.ediv_le_self b ha
  rw [wrapLong_eq_self (by omega) (by omega)]

theorem long_div_ne_division_by_zero {a b : Int} (hb : 0 < b) :
    ∃ q, long_div a b = .ok q := by
  unfold long_div
  rw [if_neg (by omega)]
  exact ⟨_, rfl⟩

theorem digitChar_isDigit {d : Nat} (h : d < 10) : (Nat.digitChar d).isDigit = true := by
  interval_cases d <;> decide

theorem digitChar_ne_bar {d : Nat} (h : d < 10) : Nat.digitChar d ≠ '|' := by
  interval_cases d <;> decide

theorem toDigitsCore_all (P : Char → Prop) (hP : ∀ d, d < 10 → P (Nat.digitChar d))
    (fuel n : Nat) (ds : List Char) (hds : ∀ c ∈ ds, P c) :
    ∀ c ∈ Nat.toDigitsCore 10 fuel n ds, P c := by
  induction fuel generalizing n ds with
  | zero => simpa [Nat.toDigitsCore] using hds
  | succ f ih =>
    have hcons : ∀ c ∈ Nat.digitChar (n % 10) :: ds, P c := by
      intro c hc
      rcases List.mem_cons.mp hc with h | h
      · rw [h]; exact hP _ (Nat.mod_lt _ (by decide))
      · exact hds c h
    unfold Nat.toDigitsCore
    by_cases h0 : n / 10 = 0
    · simpa [h0] using hcons
    · simp only [h0, if_false]
      exact ih _ _ hcons

theorem toDigitsCore_ne_nil (fuel n : Nat) (ds : List Char) :
    Nat.toDigitsCore 10 (fuel + 1) n ds ≠ [] := by
  induction fuel generalizing n ds with
  | zero =>
    unfold Nat.toDigitsCore
    by_cases h0 : n / 10 = 0 <;> simp [h0, Nat.toDigitsCore]
  | succ f ih =>
    unfold Nat.toDigitsCore
    by_cases h0 : n / 10 = 0
    · simp [h0]
    · simp only [h0, if_false]
      exact ih _ _

/-- The decimal form of a `long` is an `int` of the result grammar. -/
theorem isInt_to_string (x : Int) : IsInt (to_string x) := by
  refine ⟨Nat.toDigits 10 x.natAbs, toDigitsCore_ne_nil _ _ _, ?_, ?_⟩
  · exact toDigitsCore_all _ (fun d hd => digitChar_isDigit hd) _ _ _ (by simp)
  · unfold to_string
    by_cases h : x < 0
    · right; simp [h]
    · left; simp [h]

theorem bar_not_mem_to_string (x : Int) : ∀ c ∈ to_string x, c ≠ '|' := by
  have hd : ∀ c ∈ Nat.toDigits 10 x.natAbs, c ≠ '|' :=
    toDigitsCore_all _ (fun d hd => digitChar_ne_bar hd) _ _ _ (by simp)
  unfold to_string
  by_cases h : x < 0
  · simp only [h, if_true]
    intro c hc
    rcases List.mem_cons.mp hc with h1 | h1
    · rw [h1]; decide
    · exact hd c h1
  · simpa [h] using hd

/-- The payload of a formatted result is its last argument. -/
theorem payloadOf_formatResult (a b c d : Int) (p : Str) :
    payloadOf (formatResult a b c d p) = p := by
  have hpre : ∀ x ∈ "TTFT_MS=".toList ++ to_string a ++ ";ITPS=".toList ++ to_string b ++
      ";OTPS=".toList ++ to_string c ++ ";OET_MS=".toList ++ to_string d,
      (fun c => c != '|') x = true := by
    intro x hx
    simp only [List.mem_append] at hx
    have key : x ≠ '|' := by
      rcases hx with ((((((h | h) | h) | h) | h) | h) | h) | h
      · revert x; decide
      · exact bar_not_mem_to_string a x h
      · revert x; decide
      · exact bar_not_mem_to_string b x h
      · revert x; decide
      · exact bar_not_mem_to_string c x h
      · revert x; decide
      · exact bar_not_mem_to_string d x h
    simpa using key
  unfold payloadOf formatResult
  rw [List.append_assoc _ "|".toList p, List.dropWhile_append_of_pos hpre]
  rfl

theorem isResult_formatResult (a b c d : Int) {p : Str} (hp : IsPayload p) :
    IsResult (formatResult a b c d p) :=
  ⟨to_string a, to_string b, to_string c, to_string d, p, isInt_to_string a,
    isInt_to_string b, isInt_to_string c, isInt_to_string d, hp, rfl⟩

/-- The extractor's payload is `EMPTY` or a label list, and never an error token. -/
theorem extractAllergens_payload (raw : Str) :
    (extractAllergens raw = "EMPTY".toList ∨ IsLabelList (extractAllergens raw)) ∧
    isErrorPayload (extractAllergens raw) = false := by
  rcases extractAllergens_cases raw with hE | ⟨hne, hpay⟩
  · rw [hE]
    exact ⟨Or.inl rfl, by decide⟩
  · have hmem : ∀ d ∈ detect (transform_tolower raw), d ∈ ALLOWED_ALLERGENS :=
      fun d hd => (mem_detect.mp hd).1
    refine ⟨Or.inr ⟨_, hne, hmem, hpay⟩, ?_⟩
    rw [hpay]
    cases hdet : detect (transform_tolower raw) with
    | nil => exact absurd hdet hne
    | cons d ds =>
      obtain ⟨c, cs, hc, hE⟩ := head_ne_E_of_mem_vocabulary
        (hmem d (by rw [hdet]; exact List.mem_cons_self _ _))
      rw [intercalate_cons_cons, hc]
      have hE2 : ¬ 'E' = c := fun h => hE h.symm
      simp [isErrorPayload, List.isPrefixOf, hE2]

theorem isPayload_extractAllergens (raw : Str) : IsPayload (extractAllergens raw) := by
  rcases (extractAllergens_payload raw).1 with h | h
  · exact Or.inl h
  · exact Or.inr (Or.inr h)

/-! ## Lemmas: the generation loop -/

theorem pieces_zero (w : World) : pieces w 0 = [] := rfl

theorem pieces_succ (w : World) (j : Nat) :
    pieces w (j + 1) = pieces w j ++ piece (w.step j) := by
  simp [pieces, List.range_succ]

/-- A pass of the loop body that neither meets an end-of-generation token nor a failing
decode leads from the state after `j` passes to the state after `j + 1` passes. -/
theorem genLoop_pass (w : World) (n_prompt : Int) (j fuel : Nat)
    (hb : j = 0 ∨ (j : Int) + 1 < n_prompt + 64)
    (heog : (w.step j).is_eog = false) (hdec : (w.step j).decode = 0) :
    genLoop w n_prompt (fuel + 1) (stateAfter w n_prompt j)
      = genLoop w n_prompt fuel (stateAfter w n_prompt (j + 1)) := by
  cases j with
  | zero =>
    simp [genLoop, stateAfter, Loop.init, max_tokens, heog, hdec, pieces_succ w 0, pieces_zero]
  | succ i =>
    have hb2 : (i : Int) + 1 + 1 < n_prompt + 64 := by
      rcases hb with h | h
      · omega
      · push_cast at h; exact h
    simp [genLoop, stateAfter, max_tokens, heog, hdec, hb2, pieces_succ w (i + 1)]

theorem genLoop_decode_failed (w : World) (n_prompt : Int) (j fuel : Nat)
    (hb : j = 0 ∨ (j : Int) + 1 < n_prompt + 64)
    (heog : (w.step j).is_eog = false) (hdec : (w.step j).decode ≠ 0) :
    genLoop w n_prompt (fuel + 1) (stateAfter w n_prompt j)
      = some (stateDecodeFailed w n_prompt j) := by
  cases j with
  | zero =>
    simp [genLoop, stateAfter, stateDecodeFailed, Loop.init, max_tokens, heog, hdec,
      pieces_succ w 0, pieces_zero]
  | succ i =>
    have hb2 : (i : Int) + 1 + 1 < n_prompt + 64 := by
      rcases hb with h | h
      · omega
      · push_cast at h; exact h
    simp [genLoop, stateAfter, stateDecodeFailed, max_tokens, heog, hdec, hb2,
      pieces_succ w (i + 1)]

theorem genLoop_eog (w : World) (n_prompt : Int) (j fuel : Nat)
    (hb : j = 0 ∨ (j : Int) + 1 < n_prompt + 64)
    (heog : (w.step j).is_eog = true) :
    genLoop w n_prompt (fuel + 1) (stateAfter w n_prompt j)
      = some { stateAfter w n_prompt j with sampled := j + 1 } := by
  cases j with
  | zero =>
    simp [genLoop, stateAfter, Loop.init, max_tokens, heog]
  | succ i =>
    have hb2 : (i : Int) + 1 + 1 < n_prompt + 64 := by
      rcases hb with h | h
      · omega
      · push_cast at h; exact h
    simp [genLoop, stateAfter, max_tokens, heog, hb2]

theorem genLoop_budget (w : World) (n_prompt : Int) (j fuel : Nat)
    (hj : j ≠ 0) (hb : ¬ (j : Int) + 1 < n_prompt + 64) :
    genLoop w n_prompt (fuel + 1) (stateAfter w n_prompt j)
      = some (stateAfter w n_prompt j) := by
  cases j with
  | zero => exact absurd rfl hj
  | succ i =>
    have hb2 : ¬ (i : Int) + 1 + 1 < n_prompt + 64 := by
      push_cast at hb; exact hb
    simp [genLoop, stateAfter, max_tokens, hb2]

/-- The first `j` passes, when none meets an end-of-generation token or a failing decode. -/
theorem genLoop_unroll (w : World) (n_prompt : Int) (j fuel : Nat)
    (hcont : ∀ i < j, (w.step i).is_eog = false ∧ (w.step i).decode = 0)
    (hb : j ≤ 1 ∨ (j : Int) < n_prompt + 64) :
    genLoop w n_prompt (fuel + j) (Loop.init n_prompt)
      = genLoop w n_prompt fuel (stateAfter w n_prompt j) := by
  induction j generalizing fuel with
  | zero => rfl
  | succ i ih =>
    have h1 : fuel + (i + 1) = (fuel + 1) + i := by omega
    rw [h1, ih (fuel + 1) (fun k hk => hcont k (by omega)) (by omega)]
    exact genLoop_pass w n_prompt i fuel (by omega) (hcont i (by omega)).1
      (hcont i (by omega)).2

theorem stateAfter_generated (w : World) (n_prompt : Int) (j : Nat) :
    (stateAfter w n_prompt j).generated_tokens = (j : Int) := by
  cases j <;> simp [stateAfter, Loop.init]

theorem genLoop_tail (w : World) (n_prompt : Int) :
    ∀ (fuel j : Nat), 1 ≤ j → (n_prompt + 63 - (j : Int)).toNat < fuel →
      ∃ s, genLoop w n_prompt fuel (stateAfter w n_prompt j) = some s ∧
        (j : Int) ≤ s.generated_tokens ∧ s.generated_tokens ≤ max (j : Int) (n_prompt + 63) := by
  intro fuel
  induction fuel with
  | zero => intro j _ h; omega
  | succ f ih =>
    intro j hj hf
    by_cases hb : (j : Int) + 1 < n_prompt + 64
    · cases heog : (w.step j).is_eog
      · by_cases hdec : (w.step j).decode = 0
        · rw [genLoop_pass w n_prompt j f (Or.inr hb) heog hdec]
          obtain ⟨s, hs, h1, h2⟩ := ih (j + 1) (by omega) (by omega)
          refine ⟨s, hs, ?_, ?_⟩
          · push_cast at h1; omega
          · push_cast at h2; omega
        · rw [genLoop_decode_failed w n_prompt j f (Or.inr hb) heog hdec]
          refine ⟨_, rfl, ?_, ?_⟩
          · simp [stateDecodeFailed, stateAfter]
          · simp only [stateDecodeFailed, stateAfter]; omega
      · rw [genLoop_eog w n_prompt j f (Or.inr hb) heog]
        refine ⟨_, rfl, ?_, ?_⟩
        · simp [stateAfter_generated]
        · simp only [stateAfter_generated]; omega
    · rw [genLoop_budget w n_prompt j f (by omega) hb]
      refine ⟨_, rfl, ?_, ?_⟩
      · simp [stateAfter_generated]
      · simp only [stateAfter_generated]; omega

/-- The loop is left within `n_prompt + 64` tests of its condition, and it has generated at
most `n_prompt + 63` tokens. -/
theorem genLoop_terminates (w : World) (n_prompt : Int) (fuel : Nat)
    (hn : 1 ≤ n_prompt) (hfuel : n_prompt.toNat + 64 ≤ fuel) :
    ∃ s, genLoop w n_prompt fuel (Loop.init n_prompt) = some s ∧
      0 ≤ s.generated_tokens ∧ s.generated_tokens ≤ n_prompt + 63 := by
  obtain ⟨f, rfl⟩ : ∃ f, fuel = f + 1 := ⟨fuel - 1, by omega⟩
  have h0 : Loop.init n_prompt = stateAfter w n_prompt 0 := rfl
  rw [h0]
  cases heog : (w.step 0).is_eog
  · by_cases hdec : (w.step 0).decode = 0
    · rw [genLoop_pass w n_prompt 0 f (Or.inl rfl) heog hdec]
      obtain ⟨s, hs, h1, h2⟩ := genLoop_tail w n_prompt f 1 (le_refl _) (by omega)
      exact ⟨s, hs, by omega, by omega⟩
    · rw [genLoop_decode_failed w n_prompt 0 f (Or.inl rfl) heog hdec]
      refine ⟨_, rfl, ?_, ?_⟩
      · simp [stateDecodeFailed, stateAfter]
      · simp only [stateDecodeFailed, stateAfter]; omega
  · rw [genLoop_eog w n_prompt 0 f (Or.inl rfl) heog]
    refine ⟨_, rfl, ?_, ?_⟩
    · simp [stateAfter, Loop.init]
    · simp only [stateAfter, Loop.init]; omega

/-! ## Lemmas: `runModel` on its normal path -/

theorem throughput_metric (count ms : Int) (h0 : 0 ≤ count) :
    ∃ m, (if ms > 0 then long_div (long_mul count 1000) ms else pure (-1) : Except Fault Int)
        = .ok m ∧
      (count < 2 ^ 32 → m = throughput count ms) := by
  by_cases hms : ms > 0
  · obtain ⟨q, hq⟩ := long_div_ne_division_by_zero (a := long_mul count 1000) hms
    refine ⟨q, by simp [hms, hq], ?_⟩
    intro hc
    have hmul : long_mul count 1000 = count * 1000 :=
      wrapLong_eq_self (by omega) (by omega)
    rw [hmul, long_div_pos (by omega) (by omega) hms] at hq
    simp only [throughput, hms, if_true]
    exact (Except.ok.inj hq).symm
  · exact ⟨-1, by simp only [hms, if_false]; rfl, fun _ => by simp [throughput, hms]⟩

/-- On the normal path `runModel` is `finish` on the state in which the loop is left. -/
theorem runModel_eq_finish (w : World) (fuel : Nat) (prompt model_path : Str) (s : Loop)
    (hm : w.llama_model_load_from_file model_path = true)
    (hc : w.llama_init_from_model = true)
    (hn : 0 < w.llama_tokenize prompt (prompt.length + 8))
    (hd : w.llama_decode_prompt = 0)
    (hs : genLoop w (w.llama_tokenize prompt (prompt.length + 8)) fuel
      (Loop.init (w.llama_tokenize prompt (prompt.length + 8))) = some s) :
    runModel w fuel prompt model_path
      = finish w (w.llama_tokenize prompt (prompt.length + 8)) s := by
  unfold runModel finish
  simp only [hm, hc, hd, hs, not_le.mpr hn, Bool.not_true, Bool.false_eq_true,
    if_false, ne_eq, not_true_eq_false]
  cases h1 : (if w.prefill_ms > 0 then
      long_div (long_mul (w.llama_tokenize prompt (prompt.length + 8)) 1000) w.prefill_ms
      else pure (-1) : Except Fault Int) <;> rfl

theorem finish_ok (w : World) (n_prompt : Int) (s : Loop)
    (hn : 0 ≤ n_prompt) (hg : 0 ≤ s.generated_tokens) :
    ∃ itps otps,
      finish w n_prompt s
        = .ok (formatResult s.ttft_ms itps otps w.gen_ms (extractAllergens s.output)) ∧
      (n_prompt < 2 ^ 32 → itps = throughput n_prompt w.prefill_ms) ∧
      (s.generated_tokens < 2 ^ 32 → otps = throughput s.generated_tokens w.gen_ms) := by
  obtain ⟨itps, hi, hi2⟩ := throughput_metric n_prompt w.prefill_ms hn
  obtain ⟨otps, ho, ho2⟩ := throughput_metric s.generated_tokens w.gen_ms hg
  refine ⟨itps, otps, ?_, hi2, ho2⟩
  unfold finish
  rw [hi, ho]
  rfl

theorem finish_congr (w w' : World) (n_prompt : Int) (s s' : Loop)
    (h1 : w.prefill_ms = w'.prefill_ms) (h2 : w.gen_ms = w'.gen_ms)
    (h3 : s.ttft_ms = s'.ttft_ms) (h4 : s.generated_tokens = s'.generated_tokens)
    (h5 : s.output = s'.output) :
    finish w n_prompt s = finish w' n_prompt s' := by
  unfold finish
  rw [h1, h2, h3, h4, h5]

theorem runModel_model_load_failed (w : World) (fuel : Nat) (prompt model_path : Str)
    (hm : w.llama_model_load_from_file model_path = false) :
    runModel w fuel prompt model_path
      = .ok "TTFT_MS=0;ITPS=0;OTPS=0;OET_MS=0|ERROR_MODEL_LOAD_FAILED".toList := by
  unfold runModel
  simp only [hm, Bool.not_false, if_true]

theorem runModel_context_init_failed (w : World) (fuel : Nat) (prompt model_path : Str)
    (hm : w.llama_model_load_from_file model_path = true)
    (hc : w.llama_init_from_model = false) :
    runModel w fuel prompt model_path
      = .ok "TTFT_MS=0;ITPS=0;OTPS=0;OET_MS=0|ERROR_CONTEXT_INIT_FAILED".toList := by
  unfold runModel
  simp only [hm, hc, Bool.not_true, Bool.not_false, Bool.false_eq_true, if_true, if_false]

theorem runModel_tokenization_failed (w : World) (fuel : Nat) (prompt model_path : Str)
    (hm : w.llama_model_load_from_file model_path = true)
    (hc : w.llama_init_from_model = true)
    (hn : w.llama_tokenize prompt (prompt.length + 8) ≤ 0) :
    runModel w fuel prompt model_path
      = .ok "TTFT_MS=0;ITPS=0;OTPS=0;OET_MS=0|ERROR_TOKENIZATION_FAILED".toList := by
  unfold runModel
  simp only [hm, hc, hn, Bool.not_true, Bool.false_eq_true, if_true, if_false]

theorem runModel_prefill_failed (w : World) (fuel : Nat) (prompt model_path : Str)
    (hm : w.llama_model_load_from_file model_path = true)
    (hc : w.llama_init_from_model = true)
    (hn : 0 < w.llama_tokenize prompt (prompt.length + 8))
    (hd : w.llama_decode_prompt ≠ 0) :
    runModel w fuel prompt model_path
      = .ok "TTFT_MS=0;ITPS=0;OTPS=0;OET_MS=0|ERROR_DECODE_FAILED".toList := by
  unfold runModel
  simp only [hm, hc, not_le.mpr hn, hd, Bool.not_true, Bool.false_eq_true, if_true, if_false,
    ne_eq, not_false_eq_true]

/-- Without a fatal failure and with enough fuel, `runModel` returns the formatted metrics and
the extractor's payload of the text the loop has produced. -/
theorem runModel_normal (w : World) (fuel : Nat) (prompt model_path : Str)
    (hm : w.llama_model_load_from_file model_path = true)
    (hc : w.llama_init_from_model = true)
    (hn : 0 < w.llama_tokenize prompt (prompt.length + 8))
    (hd : w.llama_decode_prompt = 0)
    (hfuel : (w.llama_tokenize prompt (prompt.length + 8)).toNat + 64 ≤ fuel) :
    ∃ (s : Loop) (itps otps : Int),
      genLoop w (w.llama_tokenize prompt (prompt.length + 8)) fuel
        (Loop.init (w.llama_tokenize prompt (prompt.length + 8))) = some s ∧
      0 ≤ s.generated_tokens ∧
      s.generated_tokens ≤ w.llama_tokenize prompt (prompt.length + 8) + 63 ∧
      runModel w fuel prompt model_path
        = .ok (formatResult s.ttft_ms itps otps w.gen_ms (extractAllergens s.output)) ∧
      (w.llama_tokenize prompt (prompt.length + 8) < 2 ^ 31 →
        itps = throughput (w.llama_tokenize prompt (prompt.length + 8)) w.prefill_ms ∧
        otps = throughput s.generated_tokens w.gen_ms) := by
  obtain ⟨s, hs, hg0, hg1⟩ := genLoop_terminates w _ fuel hn hfuel
  obtain ⟨itps, otps, hf, hi, ho⟩ :=
    finish_ok w (w.llama_tokenize prompt (prompt.length + 8)) s (le_of_lt hn) hg0
  refine ⟨s, itps, otps, hs, hg0, hg1, ?_, fun h => ⟨hi (by omega), ho (by omega)⟩⟩
  rw [runModel_eq_finish w fuel prompt model_path s hm hc hn hd hs, hf]

theorem not_fatalFailure {w : World} {prompt model_path : Str}
    (h : ¬ fatalFailure w prompt model_path) :
    w.llama_model_load_from_file model_path = true ∧ w.llama_init_from_model = true ∧
    0 < w.llama_tokenize prompt (prompt.length + 8) ∧ w.llama_decode_prompt = 0 := by
  unfold fatalFailure at h
  simp only [not_or, Bool.not_eq_false, not_le, ne_eq, not_not] at h
  exact h

/-- A fatal failure returns an error payload; a run without one, given enough fuel, returns a
payload that is not an error token. -/
theorem runModel_error_payload (w : World) (fuel : Nat) (prompt model_path : Str)
    (hfuel : (w.llama_tokenize prompt (prompt.length + 8)).toNat + 64 ≤ fuel) :
    ∃ s, runModel w fuel prompt model_path = .ok s ∧
      (isErrorPayload (payloadOf s) = true ↔ fatalFailure w prompt model_path) := by
  by_cases hf : fatalFailure w prompt model_path
  · cases hm : w.llama_model_load_from_file model_path
    · exact ⟨_, runModel_model_load_failed w fuel prompt model_path hm,
        iff_of_true (by decide) hf⟩
    · cases hc : w.llama_init_from_model
      · exact ⟨_, runModel_context_init_failed w fuel prompt model_path hm hc,
          iff_of_true (by decide) hf⟩
      · by_cases hn : w.llama_tokenize prompt (prompt.length + 8) ≤ 0
        · exact ⟨_, runModel_tokenization_failed w fuel prompt model_path hm hc hn,
            iff_of_true (by decide) hf⟩
        · have hd : w.llama_decode_prompt ≠ 0 := by
            rcases hf with h | h | h | h
            · rw [hm] at h; cases h
            · rw [hc] at h; cases h
            · exact absurd h hn
            · exact h
          exact ⟨_, runModel_prefill_failed w fuel prompt model_path hm hc (by omega) hd,
            iff_of_true (by decide) hf⟩
  · obtain ⟨hm, hc, hn, hd⟩ := not_fatalFailure hf
    obtain ⟨s, itps, otps, _, _, _, hr, _⟩ :=
      runModel_normal w fuel prompt model_path hm hc hn hd hfuel
    refine ⟨_, hr, iff_of_false ?_ hf⟩
    rw [payloadOf_formatResult, (extractAllergens_payload s.output).2]
    decide

theorem runModel_ne_division_by_zero (w : World) (fuel : Nat) (prompt model_path : Str) :
    runModel w fuel prompt model_path ≠ .error .division_by_zero := by
  cases hm : w.llama_model_load_from_file model_path
  · rw [runModel_model_load_failed w fuel prompt model_path hm]; intro h; cases h
  cases hc : w.llama_init_from_model
  · rw [runModel_context_init_failed w fuel prompt model_path hm hc]; intro h; cases h
  by_cases hn : w.llama_tokenize prompt (prompt.length + 8) ≤ 0
  · rw [runModel_tokenization_failed w fuel prompt model_path hm hc hn]; intro h; cases h
  by_cases hd : w.llama_decode_prompt = 0
  · obtain ⟨itps, hi, _⟩ := throughput_metric (w.llama_tokenize prompt (prompt.length + 8))
      w.prefill_ms (by omega)
    cases hs : genLoop w (w.llama_tokenize prompt (prompt.length + 8)) fuel
      (Loop.init (w.llama_tokenize prompt (prompt.length + 8))) with
    | none =>
      unfold runModel
      simp only [hm, hc, hd, hs, hi, hn, Bool.not_true, Bool.false_eq_true,
        if_false, ne_eq, not_true_eq_false]
      intro h; cases h
    | some s =>
      rw [runModel_eq_finish w fuel prompt model_path s hm hc (by omega) hd hs]
      unfold finish
      rw [hi]
      by_cases hg : w.gen_ms > 0
      · obtain ⟨q, hq⟩ := long_div_ne_division_by_zero
          (a := long_mul s.generated_tokens 1000) hg
        simp only [hg, if_true, hq]
        intro h; cases h
      · simp only [hg, if_false]
        intro h; cases h
  · rw [runModel_prefill_failed w fuel prompt model_path hm hc (by omega) hd]; intro h; cases h

/-! ## Lemmas: a failing incremental decode -/

/-- When the decode of the `k`-th token fails, the loop is left with `k` tokens generated and
the pieces of all `k` tokens in `output`. -/
theorem genLoop_decode_fails_at (w : World) (n_prompt : Int) (k fuel : Nat)
    (hk : 1 ≤ k) (hreach : (k : Int) < n_prompt + 64)
    (heog : ∀ i < k, (w.step i).is_eog = false)
    (hok : ∀ i, i + 1 < k → (w.step i).decode = 0)
    (hfail : (w.step (k - 1)).decode ≠ 0)
    (hfuel : k ≤ fuel) :
    genLoop w n_prompt fuel (Loop.init n_prompt)
      = some (stateDecodeFailed w n_prompt (k - 1)) := by
  obtain ⟨j, rfl⟩ : ∃ j, k = j + 1 := ⟨k - 1, by omega⟩
  obtain ⟨f, rfl⟩ : ∃ f, fuel = (f + 1) + j := ⟨fuel - (j + 1), by omega⟩
  rw [genLoop_unroll w n_prompt j (f + 1)
    (fun i hi => ⟨heog i (by omega), hok i (by omega)⟩) (by push_cast at hreach; omega)]
  simp only [Nat.add_sub_cancel] at hfail ⊢
  exact genLoop_decode_failed w n_prompt j f (by push_cast at hreach; omega)
    (heog j (by omega)) hfail

theorem pieces_noFailureTwin (w : World) (k j : Nat) (hj : j ≤ k) :
    pieces (noFailureTwin w k) j = pieces w j := by
  induction j with
  | zero => rfl
  | succ i ih =>
    rw [pieces_succ, pieces_succ, ih (by omega)]
    have hi : i < k := by omega
    simp [noFailureTwin, piece, hi]

/-- The run without failure generates the same `k` tokens and the same text. -/
theorem genLoop_noFailureTwin (w : World) (n_prompt : Int) (k fuel : Nat)
    (hk : 1 ≤ k) (hreach : (k : Int) < n_prompt + 64)
    (heog : ∀ i < k, (w.step i).is_eog = false)
    (hfuel : k + 1 ≤ fuel) :
    ∃ s, genLoop (noFailureTwin w k) n_prompt fuel (Loop.init n_prompt) = some s ∧
      s.ttft_ms = w.first_ms ∧ s.generated_tokens = (k : Int) ∧ s.output = pieces w k := by
  obtain ⟨f, rfl⟩ : ∃ f, fuel = (f + 1) + k := ⟨fuel - (k + 1), by omega⟩
  have hcont : ∀ i < k, ((noFailureTwin w k).step i).is_eog = false ∧
      ((noFailureTwin w k).step i).decode = 0 := by
    intro i hi
    simp [noFailureTwin, hi, heog i hi]
  rw [genLoop_unroll (noFailureTwin w k) n_prompt k (f + 1) hcont (Or.inr hreach)]
  obtain ⟨j, rfl⟩ : ∃ j, k = j + 1 := ⟨k - 1, by omega⟩
  have hout : pieces (noFailureTwin w (j + 1)) (j + 1) = pieces w (j + 1) :=
    pieces_noFailureTwin w (j + 1) (j + 1) (le_refl _)
  by_cases hb : ((j + 1 : Nat) : Int) + 1 < n_prompt + 64
  · have he : ((noFailureTwin w (j + 1)).step (j + 1)).is_eog = true := by
      simp [noFailureTwin]
    rw [genLoop_eog (noFailureTwin w (j + 1)) n_prompt (j + 1) f (Or.inr hb) he]
    exact ⟨_, rfl, rfl, by simp [stateAfter], by simp [stateAfter, hout]⟩
  · rw [genLoop_budget (noFailureTwin w (j + 1)) n_prompt (j + 1) f (by omega) hb]
    exact ⟨_, rfl, rfl, by simp [stateAfter], by simp [stateAfter, hout]⟩

/-! ## The extractor's claims -/

/-- C3: when the lowercase form of the raw text contains "empty" and does not contain
"not empty", the payload is exactly "EMPTY", whatever else the text contains. -/
theorem C3_empty_short_circuit (raw : Str)
    (hempty : "empty".toList <:+: transform_tolower raw)
    (hnot : ¬ "not empty".toList <:+: transform_tolower raw) :
    extractAllergens raw = "EMPTY".toList := by
  apply extractAllergens_short
  rw [Bool.and_eq_true, Bool.not_eq_true', ← Bool.not_eq_true, found_iff, found_iff]
  exact ⟨hempty, hnot⟩

/-- C3 at the text "Empty: milk, egg, peanut, tree nut, wheat, soy, shellfish, sesame", which
names every vocabulary allergen. -/
theorem C3_empty_short_circuit_witness :
    (∀ a ∈ ALLOWED_ALLERGENS, a <:+: transform_tolower
      "Empty: milk, egg, peanut, tree nut, wheat, soy, shellfish, sesame".toList) ∧
    extractAllergens "Empty: milk, egg, peanut, tree nut, wheat, soy, shellfish, sesame".toList
      = "EMPTY".toList :=
  ⟨by
    intro a ha
    rw [← found_iff]
    revert a
    decide,
   C3_empty_short_circuit _ ((found_iff _ _).mp (by decide))
    (fun h => absurd ((found_iff _ _).mpr h) (by decide))⟩

/-- C4: when the EMPTY short-circuit does not fire, the payload is "EMPTY" exactly when no
vocabulary allergen is a substring of the lowercase text, and otherwise it is the comma-join of
a list of labels that holds exactly the vocabulary allergens that are substrings of the
lowercase text, each once, in the order in which the vocabulary is enumerated; the text
"the result is not empty: milk" yields "milk". -/
theorem C4_scan_payload (raw : Str)
    (hno : ¬ "empty".toList <:+: transform_tolower raw
      ∨ "not empty".toList <:+: transform_tolower raw) :
    (extractAllergens raw = "EMPTY".toList ↔
      ∀ a ∈ ALLOWED_ALLERGENS, ¬ a <:+: transform_tolower raw) ∧
    ((∃ a ∈ ALLOWED_ALLERGENS, a <:+: transform_tolower raw) →
      ∃ labels : List Str,
        extractAllergens raw = ",".toList.intercalate labels ∧
        (∀ a, a ∈ labels ↔ a ∈ ALLOWED_ALLERGENS ∧ a <:+: transform_tolower raw) ∧
        labels.Nodup ∧
        labels.Sublist ALLOWED_ALLERGENS) ∧
    extractAllergens "the result is not empty: milk".toList = "milk".toList := by
  have hcond : (found (transform_tolower raw) "empty".toList
      && !found (transform_tolower raw) "not empty".toList) = false := by
    rw [Bool.and_eq_false_iff, Bool.not_eq_false', ← Bool.not_eq_true, found_iff, found_iff]
    exact hno
  have hpay := extractAllergens_scan raw hcond
  have hsub : (detect (transform_tolower raw)).Sublist ALLOWED_ALLERGENS := by
    rw [detect_eq_filter]; exact List.filter_sublist _
  refine ⟨?_, ?_, by decide⟩
  · constructor
    · intro hE a ha hin
      have hmem : a ∈ detect (transform_tolower raw) := mem_detect.mpr ⟨ha, hin⟩
      have hne : detect (transform_tolower raw) ≠ [] := List.ne_nil_of_mem hmem
      have hnE : (detect (transform_tolower raw)).isEmpty = false := by
        simpa [List.isEmpty_iff] using hne
      rw [hpay, hnE] at hE
      exact intercalate_ne_EMPTY hne (fun d hd => (mem_detect.mp hd).1) hE
    · intro hall
      have hnil : detect (transform_tolower raw) = [] := by
        apply List.eq_nil_iff_forall_not_mem.mpr
        intro a ha
        exact hall a (mem_detect.mp ha).1 (mem_detect.mp ha).2
      rw [hpay, hnil]
      rfl
  · rintro ⟨a, ha, hin⟩
    have hmem : a ∈ detect (transform_tolower raw) := mem_detect.mpr ⟨ha, hin⟩
    have hnE : (detect (transform_tolower raw)).isEmpty = false := by
      simpa [List.isEmpty_iff] using List.ne_nil_of_mem hmem
    refine ⟨detect (transform_tolower raw), ?_, fun b => mem_detect, ?_, hsub⟩
    · rw [hpay, hnE]; rfl
    · exact hsub.nodup ALLOWED_ALLERGENS_nodup

/-- C4 at the text "Not Empty: Wheat and Egg", where the guard "not empty" stops the
short-circuit: the payload is "egg,wheat". -/
theorem C4_scan_payload_witness :
    ("not empty".toList <:+: transform_tolower "Not Empty: Wheat and Egg".toList) ∧
    extractAllergens "Not Empty: Wheat and Egg".toList = "egg,wheat".toList ∧
    ¬ (extractAllergens "Not Empty: Wheat and Egg".toList = "EMPTY".toList) :=
  have hno : "not empty".toList <:+: transform_tolower "Not Empty: Wheat and Egg".toList :=
    (found_iff _ _).mp (by decide)
  ⟨hno, by decide,
   fun hE => ((C4_scan_payload "Not Empty: Wheat and Egg".toList (Or.inr hno)).1.mp hE)
    "egg".toList (by decide) ((found_iff _ _).mp (by decide))⟩

/-- C5 as stated fails: for "Detected: milk, egg, and possibly Peanut traces" the payload is
not "milk,egg,peanut". -/
theorem C5_payload_not_in_written_order :
    extractAllergens "Detected: milk, egg, and possibly Peanut traces".toList
      ≠ "milk,egg,peanut".toList := by
  decide

/-- C5, amended: for "Detected: milk, egg, and possibly Peanut traces" the extractor matches
exactly milk, egg and peanut, and the payload is "egg,milk,peanut", the labels in the sorted
order in which the `std::set` vocabulary is enumerated. -/
theorem C5_payload_in_set_order :
    (∀ a, a ∈ detect (transform_tolower
        "Detected: milk, egg, and possibly Peanut traces".toList) ↔
      a = "milk".toList ∨ a = "egg".toList ∨ a = "peanut".toList) ∧
    extractAllergens "Detected: milk, egg, and possibly Peanut traces".toList
      = "egg,milk,peanut".toList := by
  have hd : detect (transform_tolower
      "Detected: milk, egg, and possibly Peanut traces".toList)
      = ["egg".toList, "milk".toList, "peanut".toList] := by decide
  refine ⟨?_, by decide⟩
  intro a
  rw [hd]
  simp only [List.mem_cons, List.mem_singleton, List.not_mem_nil, or_false]
  tauto

/-- C10: for every raw text, if the label list of the payload (the payload split at its
commas) contains "shellfish" then it contains "fish"; the same holds of the vector
`detected` the payload is built from. -/
theorem C10_shellfish_implies_fish (raw : Str) :
    ("shellfish".toList ∈ (extractAllergens raw).splitOn ',' →
      "fish".toList ∈ (extractAllergens raw).splitOn ',') ∧
    ("shellfish".toList ∈ detect (transform_tolower raw) →
      "fish".toList ∈ detect (transform_tolower raw)) := by
  have hdet : "shellfish".toList ∈ detect (transform_tolower raw) →
      "fish".toList ∈ detect (transform_tolower raw) := by
    intro h
    have hin := (mem_detect.mp h).2
    have hfs : "fish".toList <:+: "shellfish".toList := ⟨"shell".toList, [], by decide⟩
    exact mem_detect.mpr ⟨by decide, hfs.trans hin⟩
  refine ⟨?_, hdet⟩
  rcases extractAllergens_cases raw with hE | ⟨hne, hpay⟩
  · rw [hE]
    intro h
    exact absurd h (by decide)
  · have hsplit : (",".toList.intercalate (detect (transform_tolower raw))).splitOn ','
        = detect (transform_tolower raw) :=
      List.splitOn_intercalate _ ','
        (fun l hl => comma_not_mem_of_mem_vocabulary (mem_detect.mp hl).1) hne
    rw [hpay, hsplit]
    exact hdet

/-- C10 at the text "contains shellfish": the payload is "fish,shellfish". -/
theorem C10_shellfish_implies_fish_witness :
    "shellfish".toList ∈ (extractAllergens "contains shellfish".toList).splitOn ',' ∧
    "fish".toList ∈ (extractAllergens "contains shellfish".toList).splitOn ',' ∧
    extractAllergens "contains shellfish".toList = "fish,shellfish".toList :=
  have h : "shellfish".toList ∈ (extractAllergens "contains shellfish".toList).splitOn ',' := by
    decide
  ⟨h, (C10_shellfish_implies_fish "contains shellfish".toList).1 h, by decide⟩

/-! ## The driver's claims -/

/-- C1: for every outcome of the wrapped library calls and every clock reading, `runModel`
returns a string of the result grammar: the four metrics as decimal integers after their
keys, a bar, and a payload that is "EMPTY", an "ERROR_" token or a non-empty comma-separated
list of vocabulary labels. The fuel bounds the tests of the loop condition and is enough. -/
theorem C1_result_matches_grammar (w : World) (fuel : Nat) (prompt model_path : Str)
    (hfuel : (w.llama_tokenize prompt (prompt.length + 8)).toNat + 64 ≤ fuel) :
    ∃ s, runModel w fuel prompt model_path = .ok s ∧ IsResult s := by
  have h0 : IsInt "0".toList := ⟨"0".toList, by decide, by decide, Or.inl rfl⟩
  have herr : ∀ name : Str, name ≠ [] → (∀ c ∈ name, c.isUpper = true ∨ c = '_') →
      IsResult ("TTFT_MS=0;ITPS=0;OTPS=0;OET_MS=0|ERROR_".toList ++ name) := fun name h1 h2 =>
    ⟨"0".toList, "0".toList, "0".toList, "0".toList, "ERROR_".toList ++ name, h0, h0, h0, h0,
      Or.inr (Or.inl ⟨name, h1, h2, rfl⟩), rfl⟩
  cases hm : w.llama_model_load_from_file model_path
  · exact ⟨_, runModel_model_load_failed w fuel prompt model_path hm,
      herr "MODEL_LOAD_FAILED".toList (by decide) (by decide)⟩
  cases hc : w.llama_init_from_model
  · exact ⟨_, runModel_context_init_failed w fuel prompt model_path hm hc,
      herr "CONTEXT_INIT_FAILED".toList (by decide) (by decide)⟩
  by_cases hn : w.llama_tokenize prompt (prompt.length + 8) ≤ 0
  · exact ⟨_, runModel_tokenization_failed w fuel prompt model_path hm hc hn,
      herr "TOKENIZATION_FAILED".toList (by decide) (by decide)⟩
  by_cases hd : w.llama_decode_prompt = 0
  · obtain ⟨s, itps, otps, _, _, _, hr, _⟩ :=
      runModel_normal w fuel prompt model_path hm hc (by omega) hd hfuel
    exact ⟨_, hr, isResult_formatResult _ _ _ _ (isPayload_extractAllergens s.output)⟩
  · exact ⟨_, runModel_prefill_failed w fuel prompt model_path hm hc (by omega) hd,
      herr "DECODE_FAILED".toList (by decide) (by decide)⟩

/-- C1 at a run that generates tokens until the loop condition stops it. -/
theorem C1_result_matches_grammar_witness :
    (worldNeverEog.llama_tokenize examplePrompt (examplePrompt.length + 8)).toNat + 64 ≤ 66 ∧
    ∃ s, runModel worldNeverEog 66 examplePrompt exampleModelPath = .ok s ∧ IsResult s :=
  ⟨by decide, C1_result_matches_grammar worldNeverEog 66 examplePrompt exampleModelPath (by decide)⟩

/-- C2: each fatal failure returns all-zero metrics and its own error token: the model load,
then the context creation, then a token count of zero or less, then a non-zero prefill
decode; and when none of the four occurs the payload of the result is not an error token. -/
theorem C2_fatal_failures (w : World) (fuel : Nat) (prompt model_path : Str)
    (hfuel : (w.llama_tokenize prompt (prompt.length + 8)).toNat + 64 ≤ fuel) :
    (w.llama_model_load_from_file model_path = false →
      runModel w fuel prompt model_path
        = .ok "TTFT_MS=0;ITPS=0;OTPS=0;OET_MS=0|ERROR_MODEL_LOAD_FAILED".toList) ∧
    (w.llama_model_load_from_file model_path = true → w.llama_init_from_model = false →
      runModel w fuel prompt model_path
        = .ok "TTFT_MS=0;ITPS=0;OTPS=0;OET_MS=0|ERROR_CONTEXT_INIT_FAILED".toList) ∧
    (w.llama_model_load_from_file model_path = true → w.llama_init_from_model = true →
      w.llama_tokenize prompt (prompt.length + 8) ≤ 0 →
      runModel w fuel prompt model_path
        = .ok "TTFT_MS=0;ITPS=0;OTPS=0;OET_MS=0|ERROR_TOKENIZATION_FAILED".toList) ∧
    (w.llama_model_load_from_file model_path = true → w.llama_init_from_model = true →
      0 < w.llama_tokenize prompt (prompt.length + 8) → w.llama_decode_prompt ≠ 0 →
      runModel w fuel prompt model_path
        = .ok "TTFT_MS=0;ITPS=0;OTPS=0;OET_MS=0|ERROR_DECODE_FAILED".toList) ∧
    (w.llama_model_load_from_file model_path = true → w.llama_init_from_model = true →
      0 < w.llama_tokenize prompt (prompt.length + 8) → w.llama_decode_prompt = 0 →
      ∃ s, runModel w fuel prompt model_path = .ok s ∧
        isErrorPayload (payloadOf s) = false) := by
  refine ⟨runModel_model_load_failed w fuel prompt model_path,
    runModel_context_init_failed w fuel prompt model_path,
    runModel_tokenization_failed w fuel prompt model_path,
    runModel_prefill_failed w fuel prompt model_path, ?_⟩
  intro hm hc hn hd
  obtain ⟨s, itps, otps, _, _, _, hr, _⟩ :=
    runModel_normal w fuel prompt model_path hm hc hn hd hfuel
  exact ⟨_, hr, by rw [payloadOf_formatResult]; exact (extractAllergens_payload s.output).2⟩

/-- C2 at five runs, one for each of the four fatal failures and one without failure. -/
theorem C2_fatal_failures_witness :
    runModel worldNoModel 66 examplePrompt exampleModelPath
      = .ok "TTFT_MS=0;ITPS=0;OTPS=0;OET_MS=0|ERROR_MODEL_LOAD_FAILED".toList ∧
    runModel worldNoContext 66 examplePrompt exampleModelPath
      = .ok "TTFT_MS=0;ITPS=0;OTPS=0;OET_MS=0|ERROR_CONTEXT_INIT_FAILED".toList ∧
    runModel worldNoTokens 66 examplePrompt exampleModelPath
      = .ok "TTFT_MS=0;ITPS=0;OTPS=0;OET_MS=0|ERROR_TOKENIZATION_FAILED".toList ∧
    runModel worldPrefillFails 66 examplePrompt exampleModelPath
      = .ok "TTFT_MS=0;ITPS=0;OTPS=0;OET_MS=0|ERROR_DECODE_FAILED".toList ∧
    ∃ s, runModel worldNeverEog 66 examplePrompt exampleModelPath = .ok s ∧ isErrorPayload (payloadOf s) = false :=
  ⟨(C2_fatal_failures worldNoModel 66 examplePrompt exampleModelPath (by decide)).1 rfl,
   (C2_fatal_failures worldNoContext 66 examplePrompt exampleModelPath (by decide)).2.1 rfl rfl,
   (C2_fatal_failures worldNoTokens 66 examplePrompt exampleModelPath (by decide)).2.2.1 rfl rfl (by decide),
   (C2_fatal_failures worldPrefillFails 66 examplePrompt exampleModelPath (by decide)).2.2.2.1 rfl rfl (by decide)
     (by decide),
   (C2_fatal_failures worldNeverEog 66 examplePrompt exampleModelPath (by decide)).2.2.2.2 rfl rfl (by decide) rfl⟩

/-- C6 at a two-token prompt whose sampler never returns an end-of-generation token and whose
decodes all succeed: the loop is left, with 65 tokens generated, one more than the budget
`max_tokens` of 64, and the result reports 65 tokens in 1000 ms. -/
theorem C6_two_token_prompt_generates_65 :
    (∃ s, genLoop worldNeverEog 2 66 (Loop.init 2) = some s ∧ s.generated_tokens = 65 ∧
      max_tokens < s.generated_tokens) ∧
    runModel worldNeverEog 66 examplePrompt exampleModelPath
      = .ok "TTFT_MS=9;ITPS=500;OTPS=65;OET_MS=1000|EMPTY".toList :=
  ⟨⟨stateAfter worldNeverEog 2 65, rfl, rfl, by decide⟩, rfl⟩

/-- C7 as stated fails: the run in which the decode of the first token fails returns the same
string as the run without any failure that samples the same token, decodes it and then meets
an end-of-generation token, with the same clock readings. -/
theorem C7_decode_failure_not_observable :
    (worldDecodeFails.step 0).is_eog = false ∧ (worldDecodeFails.step 0).decode ≠ 0 ∧
    (∀ i, ((noFailureTwin worldDecodeFails 1).step i).decode = 0) ∧
    ¬ fatalFailure worldDecodeFails examplePrompt exampleModelPath ∧
    ¬ fatalFailure (noFailureTwin worldDecodeFails 1) examplePrompt exampleModelPath ∧
    runModel worldDecodeFails 66 examplePrompt exampleModelPath
      = .ok "TTFT_MS=9;ITPS=500;OTPS=1;OET_MS=1000|milk".toList ∧
    runModel (noFailureTwin worldDecodeFails 1) 66 examplePrompt exampleModelPath
      = .ok "TTFT_MS=9;ITPS=500;OTPS=1;OET_MS=1000|milk".toList := by
  refine ⟨rfl, by decide, ?_, ?_, ?_, rfl, rfl⟩
  · intro i
    by_cases hi : i = 0 <;> simp [noFailureTwin, hi]
  · unfold fatalFailure; decide
  · unfold fatalFailure; decide

/-- C7, amended: a fatal failure (model load, context creation, tokenization, prefill decode)
is observable, the payload is an error token exactly when one of them occurs; the failure
of the decode of the `k`-th generated token is not observable, the run returns the same
string as the run without failure that samples the same `k` tokens and then an
end-of-generation token, with the same clock readings. -/
theorem C7_only_fatal_failures_observable (w : World) (fuel : Nat) (prompt model_path : Str)
    (k : Nat)
    (hfuel : (w.llama_tokenize prompt (prompt.length + 8)).toNat + 64 ≤ fuel) :
    (∃ s, runModel w fuel prompt model_path = .ok s ∧
      (isErrorPayload (payloadOf s) = true ↔ fatalFailure w prompt model_path)) ∧
    (¬ fatalFailure w prompt model_path → 1 ≤ k →
      (k : Int) < w.llama_tokenize prompt (prompt.length + 8) + 64 →
      (∀ i < k, (w.step i).is_eog = false) →
      (∀ i, i + 1 < k → (w.step i).decode = 0) →
      (w.step (k - 1)).decode ≠ 0 →
      runModel w fuel prompt model_path
        = runModel (noFailureTwin w k) fuel prompt model_path) := by
  refine ⟨runModel_error_payload w fuel prompt model_path hfuel, ?_⟩
  intro hnf hk hreach heog hok hfail
  obtain ⟨hm, hc, hn, hd⟩ := not_fatalFailure hnf
  have h1 := genLoop_decode_fails_at w _ k fuel hk hreach heog hok hfail (by omega)
  obtain ⟨s, h2, h3, h4, h5⟩ := genLoop_noFailureTwin w _ k fuel hk hreach heog (by omega)
  rw [runModel_eq_finish w fuel prompt model_path _ hm hc hn hd h1,
    runModel_eq_finish (noFailureTwin w k) fuel prompt model_path s hm hc hn hd h2]
  obtain ⟨j, rfl⟩ : ∃ j, k = j + 1 := ⟨k - 1, by omega⟩
  apply finish_congr
  · rfl
  · rfl
  · rw [h3]; rfl
  · rw [h4]; simp [stateDecodeFailed, stateAfter]
  · rw [h5]; simp [stateDecodeFailed, stateAfter]

/-- C7, amended, at the run in which the decode of the first token "milk" fails. -/
theorem C7_only_fatal_failures_observable_witness :
    ¬ fatalFailure worldDecodeFails examplePrompt exampleModelPath ∧
    (worldDecodeFails.step (1 - 1)).decode ≠ 0 ∧
    runModel worldDecodeFails 66 examplePrompt exampleModelPath
      = runModel (noFailureTwin worldDecodeFails 1) 66 examplePrompt exampleModelPath :=
  have hnf : ¬ fatalFailure worldDecodeFails examplePrompt exampleModelPath := by
    unfold fatalFailure; decide
  ⟨hnf, by decide,
   (C7_only_fatal_failures_observable worldDecodeFails 66 examplePrompt exampleModelPath 1
      (by decide)).2 hnf (le_refl 1) (by decide) (fun _ _ => rfl)
      (fun i hi => absurd hi (by omega)) (by decide)⟩

/-- C8: when the prefill succeeds and the decode of the `k`-th generated token fails
(`k ≥ 1`), the loop is left there, after `k` samples; the result is the formatted metrics with
the payload of the extractor on the concatenated pieces of all `k` tokens, which is not an
error token, and OTPS is the guarded quotient of `k * 1000` by the loop's milliseconds. -/
theorem C8_decode_failure_keeps_output (w : World) (fuel : Nat)
    (prompt model_path : Str) (k : Nat)
    (hm : w.llama_model_load_from_file model_path = true)
    (hc : w.llama_init_from_model = true)
    (hn : 0 < w.llama_tokenize prompt (prompt.length + 8))
    (hint : w.llama_tokenize prompt (prompt.length + 8) < 2 ^ 31)
    (hd : w.llama_decode_prompt = 0)
    (hk : 1 ≤ k) (hreach : (k : Int) < w.llama_tokenize prompt (prompt.length + 8) + 64)
    (heog : ∀ i < k, (w.step i).is_eog = false)
    (hok : ∀ i, i + 1 < k → (w.step i).decode = 0)
    (hfail : (w.step (k - 1)).decode ≠ 0)
    (hfuel : k ≤ fuel) :
    (∃ s, genLoop w (w.llama_tokenize prompt (prompt.length + 8)) fuel
        (Loop.init (w.llama_tokenize prompt (prompt.length + 8))) = some s ∧
      s.sampled = k ∧ s.generated_tokens = (k : Int) ∧ s.output = pieces w k) ∧
    runModel w fuel prompt model_path
      = .ok (formatResult w.first_ms
          (throughput (w.llama_tokenize prompt (prompt.length + 8)) w.prefill_ms)
          (throughput (k : Int) w.gen_ms) w.gen_ms (extractAllergens (pieces w k))) ∧
    isErrorPayload (extractAllergens (pieces w k)) = false := by
  have h1 := genLoop_decode_fails_at w _ k fuel hk hreach heog hok hfail hfuel
  obtain ⟨j, rfl⟩ : ∃ j, k = j + 1 := ⟨k - 1, by omega⟩
  simp only [Nat.add_sub_cancel] at h1 hfail
  have hgen : (stateDecodeFailed w (w.llama_tokenize prompt (prompt.length + 8))
      j).generated_tokens = ((j + 1 : Nat) : Int) := by
    simp [stateDecodeFailed, stateAfter]
  refine ⟨⟨_, h1, rfl, hgen, rfl⟩, ?_, (extractAllergens_payload _).2⟩
  obtain ⟨itps, otps, hf, hi, ho⟩ := finish_ok w (w.llama_tokenize prompt (prompt.length + 8))
    (stateDecodeFailed w (w.llama_tokenize prompt (prompt.length + 8)) j) (le_of_lt hn)
    (by rw [hgen]; omega)
  rw [runModel_eq_finish w fuel prompt model_path _ hm hc hn hd h1, hf, hi (by omega),
    ho (by rw [hgen]; omega), hgen]
  rfl

/-- C8 at the run in which the decode of the first token "milk" fails: one token counted,
payload "milk". -/
theorem C8_decode_failure_keeps_output_witness :
    (worldDecodeFails.step (1 - 1)).decode ≠ 0 ∧
    runModel worldDecodeFails 66 examplePrompt exampleModelPath
      = .ok (formatResult 9 500 1 1000 "milk".toList) :=
  ⟨by decide,
   (C8_decode_failure_keeps_output worldDecodeFails 66 examplePrompt exampleModelPath 1
      rfl rfl (by decide) (by decide) rfl (le_refl 1) (by decide) (fun _ _ => rfl)
      (fun i hi => absurd hi (by omega)) (by decide) (by decide)).2.1⟩

/-- C9: on the normal return path, for a token count in the range of `int`, the result
string carries ITPS = `(n_prompt * 1000) / prefill_ms` (truncating) when `prefill_ms > 0` and
`-1` otherwise, OTPS = `(generated_tokens * 1000) / gen_ms` when `gen_ms > 0` and `-1`
otherwise, and OET_MS = `gen_ms`, where `generated_tokens` is the count with which the loop
is left; and no run, whatever the clock readings and the fuel, divides by zero. -/
theorem C9_throughput_metrics (w : World) (fuel : Nat) (prompt model_path : Str)
    (hm : w.llama_model_load_from_file model_path = true)
    (hc : w.llama_init_from_model = true)
    (hn : 0 < w.llama_tokenize prompt (prompt.length + 8))
    (hint : w.llama_tokenize prompt (prompt.length + 8) < 2 ^ 31)
    (hd : w.llama_decode_prompt = 0)
    (hfuel : (w.llama_tokenize prompt (prompt.length + 8)).toNat + 64 ≤ fuel) :
    (∃ s, genLoop w (w.llama_tokenize prompt (prompt.length + 8)) fuel
        (Loop.init (w.llama_tokenize prompt (prompt.length + 8))) = some s ∧
      runModel w fuel prompt model_path
        = .ok (formatResult s.ttft_ms
            (if w.prefill_ms > 0 then
              (w.llama_tokenize prompt (prompt.length + 8) * 1000).tdiv w.prefill_ms else -1)
            (if w.gen_ms > 0 then (s.generated_tokens * 1000).tdiv w.gen_ms else -1)
            w.gen_ms (extractAllergens s.output))) ∧
    (∀ (w' : World) (fuel' : Nat) (prompt' model_path' : Str),
      runModel w' fuel' prompt' model_path' ≠ .error .division_by_zero) := by
  refine ⟨?_, runModel_ne_division_by_zero⟩
  obtain ⟨s, itps, otps, hs, _, _, hr, hx⟩ :=
    runModel_normal w fuel prompt model_path hm hc hn hd hfuel
  obtain ⟨hi, ho⟩ := hx hint
  refine ⟨s, hs, ?_⟩
  rw [hr, hi, ho]
  rfl

/-- C9 at the run of 65 tokens: ITPS = 2 * 1000 / 4 = 500, OTPS = 65 * 1000 / 1000 = 65 and
OET_MS = 1000. -/
theorem C9_throughput_metrics_witness :
    worldNeverEog.llama_tokenize examplePrompt (examplePrompt.length + 8) < 2 ^ 31 ∧
    ∃ s, genLoop worldNeverEog 2 66 (Loop.init 2) = some s ∧
      runModel worldNeverEog 66 examplePrompt exampleModelPath
        = .ok (formatResult s.ttft_ms
            (if (4 : Int) > 0 then ((2 : Int) * 1000).tdiv 4 else -1)
            (if (1000 : Int) > 0 then (s.generated_tokens * 1000).tdiv 1000 else -1)
            1000 (extractAllergens s.output)) :=
  ⟨by decide,
   (C9_throughput_metrics worldNeverEog 66 examplePrompt exampleModelPath rfl rfl (by decide)
      (by decide) rfl (by decide)).1⟩

end FoodAllergens
